import Mathlib

/-!
Verification of the trajectory playback / attitude-visualization core of the
repository (rocket viewer).  The JavaScript sources are embedded shallowly:

* `loadCSV` / `loadParquet` follow `parsers.js` (`src/unnamed/part_003`);
  JavaScript numeric cells are modelled by `JsVal` (a finite number, `NaN`,
  or `undefined`).
* `tick` / `sliderScrub` / `plotClick` / `setData` / `fileChange` follow the
  controller in `main.js` (`src/unnamed/part_002`).
* `extent` / `pad` follow `plots.js`; `JNum` adds the IEEE infinities the
  extent computation manipulates.
* `quatToEuler`, the snapshot capture and the navball heading follow
  `main.js` / `threeview.js`, with JavaScript floating point modelled by
  exact real arithmetic.
-/

set_option maxRecDepth 100000

namespace RViz

/-- A JavaScript numeric cell: a finite number, `NaN`, or `undefined`.
Arithmetic on `undefined` coerces it to `NaN`, and both render as the
"not available" dash in the readout (`Number.isFinite` is false on both). -/
inductive JsVal where
  | num (v : ℚ)
  | nan
  | undef
deriving DecidableEq, Repr

/-- True when the cell reads as "not available" downstream: the readout's
`fmt` prints a dash exactly when `Number.isFinite` fails, which is the case
for `NaN` and `undefined`. -/
def JsVal.isNA : JsVal → Bool
  | .num _ => false
  | _ => true

/-- True when the cell holds an actual (finite) number. -/
def JsVal.isNum : JsVal → Bool
  | .num _ => true
  | _ => false

/-- Value of a digit string, most significant first. -/
def digitsToNat (cs : List Char) : ℕ :=
  cs.foldl (fun n c => 10 * n + (c.toNat - 48)) 0

/-- Parse an unsigned decimal literal (`123`, `1.5`, `.5`, `2.`). -/
def parseUnsignedDec (cs : List Char) : Option ℚ :=
  let ip := cs.takeWhile Char.isDigit
  let rest := cs.dropWhile Char.isDigit
  match rest with
  | [] => if ip.isEmpty then none else some ((digitsToNat ip : ℚ))
  | '.' :: fp =>
    if fp.all Char.isDigit ∧ ¬(ip.isEmpty ∧ fp.isEmpty) then
      some ((digitsToNat ip : ℚ) + (digitsToNat fp : ℚ) / (10 : ℚ) ^ fp.length)
    else none
  | _ => none

/-- JavaScript `String.prototype.split(',')` at the character level:
`''.split(',')` is `['']`, separators at the ends produce empty fields. -/
def splitCommaChars : List Char → List (List Char)
  | [] => [[]]
  | c :: rest =>
    let r := splitCommaChars rest
    if c = ',' then [] :: r
    else
      match r with
      | [] => [[c]]
      | g :: gs => (c :: g) :: gs

/-- `line.split(',')` on strings. -/
def splitComma (s : String) : List String :=
  (splitCommaChars s.toList).map String.mk

/-- Strip leading and trailing whitespace (JavaScript `trim`, and the
whitespace stripping `Number` performs). -/
def trimChars (cs : List Char) : List Char :=
  ((cs.dropWhile Char.isWhitespace).reverse.dropWhile Char.isWhitespace).reverse

/-- `s.trim()` on strings. -/
def jsTrim (s : String) : String :=
  String.mk (trimChars s.toList)

/-- JavaScript `Number(string)` on the decimal literals that occur in the
delimited-text format: trimmed empty string is `0`, an optionally signed
decimal literal is its value, anything else is `NaN`.  (Exponent and hex
forms are not needed by any claim; every theorem below quantifies over
arbitrary cell values.) -/
def jsNumber (s : String) : JsVal :=
  let t := trimChars s.toList
  if t.isEmpty then .num 0
  else
    match t with
    | '-' :: cs =>
      match parseUnsignedDec cs with
      | some q => .num (-q)
      | none => .nan
    | '+' :: cs =>
      match parseUnsignedDec cs with
      | some q => .num q
      | none => .nan
    | cs =>
      match parseUnsignedDec cs with
      | some q => .num q
      | none => .nan

/-- The uniform in-memory trajectory record produced by both loaders
(`{ t, pos, vel, quat, omega, fuel }` in `parsers.js`). -/
structure Record where
  t : List JsVal
  pos : List (JsVal × JsVal × JsVal)
  vel : List (JsVal × JsVal × JsVal)
  quat : List (JsVal × JsVal × JsVal × JsVal)
  omega : List (JsVal × JsVal × JsVal)
  fuel : List JsVal
deriving DecidableEq, Repr

/-- Index of a header name, last occurrence winning: `Object.fromEntries`
overwrites earlier entries with later ones. -/
def lastIdxOf (headers : List String) (name : String) : Option ℕ :=
  headers.enum.foldl (fun acc p => if p.2 = name then some p.1 else acc) none

/-- `r[idx[name]]` in JavaScript: `undefined` when the column name is absent
(`idx[name]` is `undefined`) or the row is too short. -/
def cellAt (row : List JsVal) : Option ℕ → JsVal
  | none => JsVal.undef
  | some i => row.getD i JsVal.undef

/-- The delimited-text loader `loadCSV` of `parsers.js`, starting from the
line list (`text.trim().split(/\r?\n/)` has already been applied; it always
yields at least one line, so an empty list behaves like `[""]`).  Headers
are the comma-split, trimmed first line; every other line is comma-split
and passed through `Number`.  Each channel is assembled by name lookup;
`pos`/`vel`/`quat`/`omega` iterate over the row indices exactly as the
`t.map((_,i) => ...)` calls do.  There is no failure path: a missing column
of any kind yields `undefined` cells, and a missing `fuel` column yields a
`NaN`-filled array.  The comma-split, trimmed header names: -/
def csvHeaders (lines : List String) : List String :=
  (splitComma (lines.headD "")).map jsTrim

/-- The parsed data rows: every line after the header, comma-split, with
`Number` applied to each cell. -/
def csvRows (lines : List String) : List (List JsVal) :=
  lines.tail.map (fun line => (splitComma line).map jsNumber)

def loadCSV (lines : List String) : Record :=
  let idx := fun name => lastIdxOf (csvHeaders lines) name
  let rows := csvRows lines
  let t := rows.map (fun r => cellAt r (idx "t"))
  let pos := rows.map (fun r => (cellAt r (idx "x"), cellAt r (idx "y"), cellAt r (idx "z")))
  let vel := rows.map (fun r => (cellAt r (idx "vx"), cellAt r (idx "vy"), cellAt r (idx "vz")))
  let quat := rows.map (fun r =>
    (cellAt r (idx "qw"), cellAt r (idx "qx"), cellAt r (idx "qy"), cellAt r (idx "qz")))
  let omega := rows.map (fun r => (cellAt r (idx "omx"), cellAt r (idx "omy"), cellAt r (idx "omz")))
  let fuel :=
    match idx "fuel" with
    | some j => rows.map (fun r => cellAt r (some j))
    | none => List.replicate t.length JsVal.nan
  ⟨t, pos, vel, quat, omega, fuel⟩

/-- The columnar loader `loadParquet` of `parsers.js`, starting from the
decoded named columns of the Arrow table.  `getCol` scans the schema fields
for the first match and falls back to the empty array when the column is
absent (the `try`/`catch` and `if (!col) return []` paths).  The channels
are assembled in a loop over `i < t.length`; out-of-range reads are
`undefined`, and `fuel[i] = fuelCol[i] ?? NaN` turns `undefined` into
`NaN`.  There is no failure path for a missing column.
`getCol` itself: -/
def getColOf (cols : List (String × List JsVal)) (name : String) : List JsVal :=
  ((cols.find? (fun p => p.1 = name)).map Prod.snd).getD []

def loadParquet (cols : List (String × List JsVal)) : Record :=
  let getCol := fun name => getColOf cols name
  let t := getCol "t"
  let n := t.length
  let att := fun (a : List JsVal) (i : ℕ) => a.getD i JsVal.undef
  let xs := getCol "x"
  let ys := getCol "y"
  let zs := getCol "z"
  let vxs := getCol "vx"
  let vys := getCol "vy"
  let vzs := getCol "vz"
  let qxs := getCol "qx"
  let qys := getCol "qy"
  let qzs := getCol "qz"
  let qws := getCol "qw"
  let omxs := getCol "omx"
  let omys := getCol "omy"
  let omzs := getCol "omz"
  let fuelCol := getCol "fuel"
  let pos := (List.range n).map (fun i => (att xs i, att ys i, att zs i))
  let vel := (List.range n).map (fun i => (att vxs i, att vys i, att vzs i))
  let quat := (List.range n).map (fun i => (att qws i, att qxs i, att qys i, att qzs i))
  let omega := (List.range n).map (fun i => (att omxs i, att omys i, att omzs i))
  let fuel := (List.range n).map (fun i =>
    match att fuelCol i with
    | JsVal.undef => JsVal.nan
    | v => v)
  ⟨t, pos, vel, quat, omega, fuel⟩

/-- A JavaScript number as manipulated by `plots.js`: the extent scan starts
from `Infinity` / `-Infinity`, so infinities must be representable. -/
inductive JNum where
  | nan
  | pinf
  | ninf
  | fin (q : ℚ)
deriving DecidableEq, Repr

/-- JavaScript `<` on numbers: any comparison involving `NaN` is false. -/
def jsLt : JNum → JNum → Bool
  | .nan, _ => false
  | _, .nan => false
  | .pinf, _ => false
  | .ninf, .ninf => false
  | .ninf, _ => true
  | .fin _, .pinf => true
  | .fin a, .fin b => a < b
  | .fin _, .ninf => false

/-- JavaScript `isFinite`. -/
def JNum.isFinite : JNum → Bool
  | .fin _ => true
  | _ => false

/-- JavaScript `+` on numbers (the IEEE special-value rules). -/
def jsAdd : JNum → JNum → JNum
  | .nan, _ => .nan
  | _, .nan => .nan
  | .pinf, .ninf => .nan
  | .ninf, .pinf => .nan
  | .pinf, _ => .pinf
  | _, .pinf => .pinf
  | .ninf, _ => .ninf
  | _, .ninf => .ninf
  | .fin a, .fin b => .fin (a + b)

/-- JavaScript unary negation on numbers. -/
def jsNeg : JNum → JNum
  | .nan => .nan
  | .pinf => .ninf
  | .ninf => .pinf
  | .fin a => .fin (-a)

/-- JavaScript `-` on numbers. -/
def jsSub (a b : JNum) : JNum := jsAdd a (jsNeg b)

/-- JavaScript `*` on numbers, as needed by `pad` (`p * d`). -/
def jsMul : JNum → JNum → JNum
  | .nan, _ => .nan
  | _, .nan => .nan
  | .pinf, .pinf => .pinf
  | .pinf, .ninf => .ninf
  | .ninf, .pinf => .ninf
  | .ninf, .ninf => .pinf
  | .pinf, .fin b => if b = 0 then .nan else if 0 < b then .pinf else .ninf
  | .fin a, .pinf => if a = 0 then .nan else if 0 < a then .pinf else .ninf
  | .ninf, .fin b => if b = 0 then .nan else if 0 < b then .ninf else .pinf
  | .fin a, .ninf => if a = 0 then .nan else if 0 < a then .ninf else .pinf
  | .fin a, .fin b => .fin (a * b)

/-- The `for (const v of arr)` loop body of `extent` in `plots.js`:
`if (v < lo) lo = v; if (v > hi) hi = v`. -/
def extentStep (p : JNum × JNum) (v : JNum) : JNum × JNum :=
  let lo := if jsLt v p.1 then v else p.1
  let hi := if jsLt p.2 v then v else p.2
  (lo, hi)

/-- `extent` of `plots.js`: scan from `[Infinity, -Infinity]`, fall back to
`[0, 1]` when either bound is non-finite, widen to `[lo-1, hi+1]` when the
bounds coincide. -/
def extent (arr : List JNum) : JNum × JNum :=
  let p := arr.foldl extentStep (JNum.pinf, JNum.ninf)
  if ¬(p.1.isFinite) ∨ ¬(p.2.isFinite) then (.fin 0, .fin 1)
  else if p.1 = p.2 then (jsSub p.1 (.fin 1), jsAdd p.2 (.fin 1))
  else p

/-- `pad` of `plots.js` with its default `p = 0.05` (the decimal literal is
modelled exactly): `[lo - p*d, hi + p*d]` for `d = hi - lo`. -/
def pad (b : JNum × JNum) : JNum × JNum :=
  let d := jsSub b.2 b.1
  (jsSub b.1 (jsMul (.fin (5/100)) d), jsAdd b.2 (jsMul (.fin (5/100)) d))

/-- `Math.atan2(y, x)` over the reals (signed zeros are not representable in
`ℝ`; `atan2 0 0 = 0` matches `Math.atan2(0, 0)` on positive zeros). -/
noncomputable def atan2 (y x : ℝ) : ℝ :=
  if 0 < x then Real.arctan (y / x)
  else if x < 0 then
    (if 0 ≤ y then Real.arctan (y / x) + Real.pi else Real.arctan (y / x) - Real.pi)
  else
    (if 0 < y then Real.pi / 2 else if y < 0 then -(Real.pi / 2) else 0)

/-- `Math.sign` over the reals. -/
noncomputable def jsSign (v : ℝ) : ℝ :=
  if v < 0 then -1 else if 0 < v then 1 else 0

/-- `quatToEuler` of `main.js`: scalar-first quaternion `[w,x,y,z]` to
intrinsic aerospace roll/pitch/yaw, with the guarded arcsine on pitch
(`Math.abs(sinp) >= 1 ? Math.sign(sinp) * (Math.PI/2) : Math.asin(sinp)`). -/
noncomputable def quatToEuler (q : ℝ × ℝ × ℝ × ℝ) : ℝ × ℝ × ℝ :=
  let w := q.1
  let x := q.2.1
  let y := q.2.2.1
  let z := q.2.2.2
  let sinr_cosp := 2 * (w * x + y * z)
  let cosr_cosp := 1 - 2 * (x * x + y * y)
  let roll := atan2 sinr_cosp cosr_cosp
  let sinp := 2 * (w * y - z * x)
  let pitch := if 1 ≤ |sinp| then jsSign sinp * (Real.pi / 2) else Real.arcsin sinp
  let siny_cosp := 2 * (w * z + x * y)
  let cosy_cosp := 1 - 2 * (y * y + z * z)
  let yaw := atan2 siny_cosp cosy_cosp
  (roll, pitch, yaw)

/-- Hamilton product of scalar-first quaternions. -/
def quatMul (a b : ℝ × ℝ × ℝ × ℝ) : ℝ × ℝ × ℝ × ℝ :=
  (a.1 * b.1 - a.2.1 * b.2.1 - a.2.2.1 * b.2.2.1 - a.2.2.2 * b.2.2.2,
   a.1 * b.2.1 + a.2.1 * b.1 + a.2.2.1 * b.2.2.2 - a.2.2.2 * b.2.2.1,
   a.1 * b.2.2.1 - a.2.1 * b.2.2.2 + a.2.2.1 * b.1 + a.2.2.2 * b.2.1,
   a.1 * b.2.2.2 + a.2.1 * b.2.2.1 - a.2.2.1 * b.2.1 + a.2.2.2 * b.1)

/-- Quaternion conjugate. -/
def quatConj (a : ℝ × ℝ × ℝ × ℝ) : ℝ × ℝ × ℝ × ℝ :=
  (a.1, -a.2.1, -a.2.2.1, -a.2.2.2)

/-- The rotation action of a quaternion on a vector — the meaning of
"the effect of q as a rotation": the vector part of `q ⬝ (0, v) ⬝ q⁻¹`,
which for a unit quaternion is the standard rotation
(this is what `THREE.Vector3.applyQuaternion` computes). -/
def quatRotate (q : ℝ × ℝ × ℝ × ℝ) (v : ℝ × ℝ × ℝ) : ℝ × ℝ × ℝ :=
  let p := quatMul (quatMul q (0, v.1, v.2.1, v.2.2)) (quatConj q)
  (p.2.1, p.2.2.1, p.2.2.2)

/-- Active rotation by `a` about the body x axis. -/
noncomputable def rotX (a : ℝ) (v : ℝ × ℝ × ℝ) : ℝ × ℝ × ℝ :=
  (v.1, Real.cos a * v.2.1 - Real.sin a * v.2.2, Real.sin a * v.2.1 + Real.cos a * v.2.2)

/-- Active rotation by `a` about the body y axis. -/
noncomputable def rotY (a : ℝ) (v : ℝ × ℝ × ℝ) : ℝ × ℝ × ℝ :=
  (Real.cos a * v.1 + Real.sin a * v.2.2, v.2.1, -(Real.sin a) * v.1 + Real.cos a * v.2.2)

/-- Active rotation by `a` about the body z axis. -/
noncomputable def rotZ (a : ℝ) (v : ℝ × ℝ × ℝ) : ℝ × ℝ × ℝ :=
  (Real.cos a * v.1 - Real.sin a * v.2.1, Real.sin a * v.1 + Real.cos a * v.2.1, v.2.2)

/-- Reconstruction of a rotation from `(roll, pitch, yaw)` under the
intrinsic aerospace sequence: roll about body x, then pitch about body y,
then yaw about body z, i.e. `v ↦ Rz(yaw) (Ry(pitch) (Rx(roll) v))`. -/
noncomputable def eulerRotate (rpy : ℝ × ℝ × ℝ) (v : ℝ × ℝ × ℝ) : ℝ × ℝ × ℝ :=
  rotZ rpy.2.2 (rotY rpy.2.1 (rotX rpy.1 v))

/-- `quatToEuler` as applied by `computeEulerAll` to a loader-produced
quaternion sample: when any component is `NaN` or `undefined` the
JavaScript result is a `NaN` triple, modelled as `none`. -/
noncomputable def jsQuatToEuler : JsVal × JsVal × JsVal × JsVal → Option (ℝ × ℝ × ℝ)
  | (.num w, .num x, .num y, .num z) => some (quatToEuler ((w : ℝ), (x : ℝ), (y : ℝ), (z : ℝ)))
  | _ => none

/-- `computeEulerAll` of `main.js`: the Euler record derived once per load. -/
noncomputable def computeEulerAll (quats : List (JsVal × JsVal × JsVal × JsVal)) :
    List (Option (ℝ × ℝ × ℝ)) :=
  quats.map jsQuatToEuler

/-- The mutable page state owned by `main.js`: the installed trajectory
record (`data`), its derived Euler cache (`data.euler`), the playing flag,
the time slider's value and `max` attribute, the selected speed, and the
snapshot index list (`cursorIndices`). -/
structure AppState where
  data : Option Record
  euler : Option (List (Option (ℝ × ℝ × ℝ)))
  playing : Bool
  sliderVal : ℤ
  sliderMax : ℤ
  speed : ℤ
  snapshots : List ℤ

/-- Modelled from the spec: the time slider is an HTML range input whose
`max` is set to `N - 1` by `setData`; `index.html` is not under `src/`, so
its `min` is the HTML default `0`, and the DOM sanitizes every assigned
value into `[min, max]`. -/
def clampSlider (st : AppState) (v : ℤ) : ℤ :=
  max 0 (min st.sliderMax v)

/-- `setData` of `main.js`.  It first installs the record and the Euler
cache, then resets the slider, then reads `data.t[0].toFixed(2)` — which
throws a `TypeError` when the time channel is empty or its first entry is
`undefined` (a missing `t` column).  `none` models that throw; by then
`data`, `euler` and the slider were already written (see `fileChange`),
while `cursorIndices` had not yet been cleared. -/
noncomputable def setData (st : AppState) (parsed : Record) : Option AppState :=
  match parsed.t.headD JsVal.undef with
  | JsVal.undef => none
  | _ =>
    some { st with
      data := some parsed
      euler := some (computeEulerAll parsed.quat)
      sliderMax := (parsed.t.length : ℤ) - 1
      sliderVal := 0
      snapshots := [] }

/-- The `fileInput` change handler of `main.js`: `try { parsed = load…;
setData(parsed) } catch (err) { alert('Failed to load file: ' + …) }`.
The second component is the alert message shown, if any.  When the parser
itself throws, the state is untouched.  When `setData` throws mid-way, the
record and Euler cache were already replaced and the slider reset, but the
snapshot list was not cleared. -/
noncomputable def fileChange (st : AppState) (res : Except String Record) :
    AppState × Option String :=
  match res with
  | .error msg => (st, some ("Failed to load file: " ++ msg))
  | .ok parsed =>
    match setData st parsed with
    | some st' => (st', none)
    | none =>
      ({ st with
          data := some parsed
          euler := some (computeEulerAll parsed.quat)
          sliderMax := (parsed.t.length : ℤ) - 1
          sliderVal := 0 },
       some "Failed to load file: TypeError")

/-- `tick` of `main.js`: bail out unless playing with data; advance the
slider by the speed, clamped above by `t.length - 1` in the JavaScript and
into the slider range by the DOM; stop when the (clamped) value has reached
the last index. -/
def tick (st : AppState) : AppState :=
  if st.playing = false then st
  else
    match st.data with
    | none => st
    | some r =>
      let nlen : ℤ := r.t.length
      let next := min (nlen - 1) (st.sliderVal + st.speed)
      let v := clampSlider st next
      let st' := { st with sliderVal := v }
      if nlen - 1 ≤ v then { st' with playing := false } else st'

/-- The `timeSlider` `input` handler of `main.js`: a user scrub sets the
slider (the DOM keeps it in range) and stops playback. -/
def sliderScrub (st : AppState) (v : ℤ) : AppState :=
  { st with sliderVal := clampSlider st v, playing := false }

/-- `handlePlotClick` of `main.js`: map the click fraction back to the
nearest sample index (`Math.round`, i.e. floor of the value plus one half),
clamp it into `[0, t.length - 1]`, and set the slider.  The playing flag is
not touched.  `wpix` is the positive rendered width of the plot. -/
def plotClick (st : AppState) (xpix wpix : ℚ) : AppState :=
  match st.data with
  | none => st
  | some r =>
    let nlen : ℤ := r.t.length
    let idx : ℤ := ⌊xpix / wpix * ((nlen : ℚ) - 1) + 1 / 2⌋
    { st with sliderVal := clampSlider st (max 0 (min (nlen - 1) idx)) }

/-- A user-driven playback event: a scheduled tick, a slider scrub, or a
plot click at pixel `x` in a plot of width `w`. -/
inductive Op where
  | tickOp : Op
  | scrubOp : ℤ → Op
  | clickOp : ℚ → ℚ → Op

/-- Apply one playback event. -/
def step (st : AppState) : Op → AppState
  | .tickOp => tick st
  | .scrubOp v => sliderScrub st v
  | .clickOp xp wp => plotClick st xp wp

/-- The controller invariant: the slider value lies in `[0, max]`, the
range is non-degenerate, and whenever a trajectory is installed the slider
maximum is its last valid index (as `setData` establishes). -/
def Inv (st : AppState) : Prop :=
  0 ≤ st.sliderVal ∧ st.sliderVal ≤ st.sliderMax ∧ 0 ≤ st.sliderMax ∧
    ∀ r, st.data = some r → st.sliderMax = (r.t.length : ℤ) - 1 ∧ 1 ≤ (r.t.length : ℤ)

/-- The mutable Three.js scene state that `threeview.js` touches when
updating the pose or capturing a snapshot: the rocket proxy's position and
quaternion (stored in Three's `(x, y, z, w)` order), the live camera
position, and the renderer's current render target (`none` = the canvas). -/
structure SceneState where
  rocketPos : ℚ × ℚ × ℚ
  rocketQuat : ℚ × ℚ × ℚ × ℚ
  cameraPos : ℚ × ℚ × ℚ
  renderTarget : Option ℕ
deriving DecidableEq, Repr

/-- Componentwise vector addition. -/
def addV3 (a b : ℚ × ℚ × ℚ) : ℚ × ℚ × ℚ :=
  (a.1 + b.1, a.2.1 + b.2.1, a.2.2 + b.2.2)

/-- `Vector3.lerp(target, alpha)`: move `alpha` of the remaining distance. -/
def lerpV3 (a b : ℚ × ℚ × ℚ) (alpha : ℚ) : ℚ × ℚ × ℚ :=
  (a.1 + (b.1 - a.1) * alpha, a.2.1 + (b.2.1 - a.2.1) * alpha, a.2.2 + (b.2.2 - a.2.2) * alpha)

/-- `updateCameraFollow` of `threeview.js`: lerp a quarter of the way
toward `targetPos + (6, 6, 4)`. -/
def updateCameraFollow (cam target : ℚ × ℚ × ℚ) : ℚ × ℚ × ℚ :=
  lerpV3 cam (addV3 target (6, 6, 4)) (1 / 4)

/-- Scalar-first `[w,x,y,z]` to Three's `(x, y, z, w)` storage order, as in
`rocket.quaternion.set(quat[1], quat[2], quat[3], quat[0])`. -/
def threeOrder (q : ℚ × ℚ × ℚ × ℚ) : ℚ × ℚ × ℚ × ℚ :=
  (q.2.1, q.2.2.1, q.2.2.2, q.1)

/-- `updateThreePose` of `threeview.js`: set the proxy pose directly from
the sample, follow with the camera, render (rendering itself mutates no
modelled state). -/
def updateThreePose (st : SceneState) (pos : ℚ × ℚ × ℚ) (quat : ℚ × ℚ × ℚ × ℚ) : SceneState :=
  let st1 := { st with rocketQuat := threeOrder quat, rocketPos := pos }
  { st1 with cameraPos := updateCameraFollow st1.cameraPos pos }

/-- `addSnapshot` of `threeview.js`, restricted to its effect on the live
scene: save the proxy pose, override it with the snapshot pose, point the
renderer at the off-screen target, render through a cloned camera, point
the renderer back at the canvas, and restore the saved pose.  The pixel
read-back and thumbnail assembly touch no scene state. -/
def addSnapshot (st : SceneState) (pos : ℚ × ℚ × ℚ) (quat : ℚ × ℚ × ℚ × ℚ) : SceneState :=
  let oldPos := st.rocketPos
  let oldQuat := st.rocketQuat
  let st1 := { st with rocketPos := pos, rocketQuat := threeOrder quat }
  let st2 := { st1 with renderTarget := some 0 }
  let st3 := { st2 with renderTarget := none }
  { st3 with rocketPos := oldPos, rocketQuat := oldQuat }

/-- `Quaternion.normalize()` in Three.js: divide by the length, or produce
the identity quaternion when the length is zero. -/
noncomputable def normalizeQ (q : ℝ × ℝ × ℝ × ℝ) : ℝ × ℝ × ℝ × ℝ :=
  let l := Real.sqrt (q.1 ^ 2 + q.2.1 ^ 2 + q.2.2.1 ^ 2 + q.2.2.2 ^ 2)
  if l = 0 then (1, 0, 0, 0) else (q.1 / l, q.2.1 / l, q.2.2.1 / l, q.2.2.2 / l)

/-- JavaScript truncation toward zero (`Math.trunc`, the integer part used
by the `%` operator). -/
noncomputable def jsTrunc (r : ℝ) : ℝ :=
  if 0 ≤ r then (⌊r⌋ : ℝ) else (⌈r⌉ : ℝ)

/-- JavaScript `%` on numbers: remainder with the sign of the dividend. -/
noncomputable def jsMod (a b : ℝ) : ℝ :=
  a - b * jsTrunc (a / b)

/-- The heading computation of `updateNavball` in `threeview.js`: rotate
the body-forward axis `(0, 0, 1)` by the normalized vehicle quaternion
(scalar-first `[w,x,y,z]` input), project onto the x–z plane
(`Math.hypot(forwardWorld.x, forwardWorld.z)`), and either report
`(Math.atan2(x, z) * 180/π + 360) % 360` or, when the projection magnitude
is at most `1e-2`, no numeric heading (`'HDG ---°'`). -/
noncomputable def headingOf (q : ℝ × ℝ × ℝ × ℝ) : Option ℝ :=
  let f := quatRotate (normalizeQ q) (0, 0, 1)
  let proj := Real.sqrt (f.1 ^ 2 + f.2.2 ^ 2)
  if 1 / 100 < proj then
    some (jsMod (atan2 f.1 f.2.2 * (180 / Real.pi) + 360) 360)
  else none

/-- Following the spec's words, for comparison with the code: the magnitude
of the projection of the transformed forward axis onto the *horizontal*
plane of the z-up world, i.e. onto the x–y plane. -/
noncomputable def specHorizontalProj (q : ℝ × ℝ × ℝ × ℝ) : ℝ :=
  let f := quatRotate (normalizeQ q) (0, 0, 1)
  Real.sqrt (f.1 ^ 2 + f.2.1 ^ 2)

/-- Claim C6: when a file-load attempt fails because the parser throws, the
previously installed trajectory record, derived Euler record, and playback
state are left entirely untouched; the error is surfaced to the user as a
message and no partial trajectory is installed. -/
theorem c6_failed_load_leaves_state_untouched (st : AppState) (msg : String) :
    fileChange st (Except.error msg) = (st, some ("Failed to load file: " ++ msg)) := rfl

/-- Claim C7: snapshot capture restores the live rocket proxy's position and
orientation exactly, and — when the renderer was targeting the canvas, as it
always is outside a capture — leaves the whole live scene state unchanged, so
any later pose update (for example the scrub-to-250 / capture / scrub-to-10
sequence) renders exactly as if the capture had never happened. -/
theorem c7_snapshot_side_effect_free (st : SceneState) (pos : ℚ × ℚ × ℚ)
    (quat : ℚ × ℚ × ℚ × ℚ) (h : st.renderTarget = none) :
    (addSnapshot st pos quat).rocketPos = st.rocketPos ∧
    (addSnapshot st pos quat).rocketQuat = st.rocketQuat ∧
    addSnapshot st pos quat = st ∧
    (∀ p' q', updateThreePose (addSnapshot st pos quat) p' q' = updateThreePose st p' q') ∧
    (∀ p250 q250 p10 q10,
      updateThreePose (addSnapshot (updateThreePose st p250 q250) pos quat) p10 q10 =
        updateThreePose (updateThreePose st p250 q250) p10 q10) := by
  have hrestore : addSnapshot st pos quat = st := by
    cases st with
    | mk rp rq cp rt => simp_all [addSnapshot]
  refine ⟨by rw [hrestore], by rw [hrestore], hrestore, fun p' q' => by rw [hrestore], ?_⟩
  intro p250 q250 p10 q10
  have hrt : (updateThreePose st p250 q250).renderTarget = none := by
    cases st with
    | mk rp rq cp rt => simp_all [updateThreePose]
  have hrestore2 : addSnapshot (updateThreePose st p250 q250) pos quat =
      updateThreePose st p250 q250 := by
    cases h2 : updateThreePose st p250 q250 with
    | mk rp rq cp rt =>
      rw [h2] at hrt
      simp_all [addSnapshot]
  rw [hrestore2]

/-- Witness for C7 at a concrete scene state and snapshot pose. -/
theorem c7_witness :
    (SceneState.mk (0, 0, 0) (0, 0, 0, 1) (6, 6, 4) none).renderTarget = none ∧
    addSnapshot (SceneState.mk (0, 0, 0) (0, 0, 0, 1) (6, 6, 4) none) (1, 2, 3) (1, 0, 0, 0) =
      SceneState.mk (0, 0, 0) (0, 0, 0, 1) (6, 6, 4) none :=
  ⟨rfl, (c7_snapshot_side_effect_free
      (SceneState.mk (0, 0, 0) (0, 0, 0, 1) (6, 6, 4) none) (1, 2, 3) (1, 0, 0, 0) rfl).2.2.1⟩

/-- Invariant of the extent scan: neither bound is `NaN`, and whenever both
bounds are finite the lower one is at most the upper one. -/
def GoodPair (p : JNum × JNum) : Prop :=
  p.1 ≠ .nan ∧ p.2 ≠ .nan ∧ ∀ a b : ℚ, p.1 = .fin a → p.2 = .fin b → a ≤ b

theorem jsLt_fin_fin (a b : ℚ) : jsLt (.fin a) (.fin b) = decide (a < b) := rfl

theorem pad_fin (u v : ℚ) :
    pad (.fin u, .fin v) = (.fin (u - 5 / 100 * (v - u)), .fin (v + 5 / 100 * (v - u))) := by
  simp only [pad, jsSub, jsAdd, jsNeg, jsMul, Prod.mk.injEq, JNum.fin.injEq]
  constructor <;> ring

theorem extentStep_good (p : JNum × JNum) (v : JNum) (h : GoodPair p) :
    GoodPair (extentStep p v) := by
  obtain ⟨h1, h2, h3⟩ := h
  obtain ⟨lo, hi⟩ := p
  simp only [extentStep, GoodPair] at *
  refine ⟨?_, ?_, ?_⟩
  · split_ifs with hv
    · intro hvn
      rw [hvn] at hv
      simp [jsLt] at hv
    · exact h1
  · split_ifs with hv
    · intro hvn
      rw [hvn] at hv
      cases hi <;> simp [jsLt] at hv
    · exact h2
  · intro a b hla hlb
    split_ifs at hla hlb with hv hw
    · rw [hla] at hlb
      cases hlb
      exact le_refl a
    · rw [hla] at hw
      rw [hlb] at hw
      simp [jsLt_fin_fin] at hw
      exact hw
    · rw [hlb] at hv
      rw [hla] at hv
      simp [jsLt_fin_fin] at hv
      exact hv
    · exact h3 a b hla hlb

theorem extentScan_good (arr : List JNum) (p : JNum × JNum) (h : GoodPair p) :
    GoodPair (arr.foldl extentStep p) := by
  induction arr generalizing p with
  | nil => exact h
  | cons v rest ih => exact ih _ (extentStep_good p v h)

theorem extentScan_nonfinite (arr : List JNum) (p : JNum × JNum)
    (harr : ∀ v ∈ arr, v.isFinite = false)
    (h1 : p.1.isFinite = false) (h2 : p.2.isFinite = false) :
    (arr.foldl extentStep p).1.isFinite = false ∧
      (arr.foldl extentStep p).2.isFinite = false := by
  induction arr generalizing p with
  | nil => exact ⟨h1, h2⟩
  | cons v rest ih =>
    have hv := harr v (by simp)
    refine ih _ (fun u hu => harr u (by simp [hu])) ?_ ?_ <;>
      simp only [extentStep] <;> split_ifs <;> assumption

theorem extentScan_const (c : ℚ) (arr : List JNum)
    (harr : ∀ v ∈ arr, v = .fin c ∨ v = .nan) (p : JNum × JNum)
    (hp : (p = (.pinf, .ninf) ∧ JNum.fin c ∈ arr) ∨ p = (.fin c, .fin c)) :
    arr.foldl extentStep p = (.fin c, .fin c) := by
  induction arr generalizing p with
  | nil =>
    rcases hp with ⟨_, hmem⟩ | rfl
    · simp at hmem
    · rfl
  | cons v rest ih =>
    have hv := harr v (by simp)
    have hrest : ∀ u ∈ rest, u = .fin c ∨ u = .nan := fun u hu => harr u (by simp [hu])
    rcases hp with ⟨rfl, hmem⟩ | rfl
    · rcases hv with rfl | rfl
      · refine ih hrest _ (Or.inr ?_)
        simp [extentStep, jsLt]
      · refine ih hrest _ (Or.inl ⟨?_, ?_⟩)
        · simp [extentStep, jsLt]
        · rcases List.mem_cons.mp hmem with heq | hmem2
          · exact absurd heq (by simp)
          · exact hmem2
    · rcases hv with rfl | rfl
      · refine ih hrest _ (Or.inr ?_)
        simp [extentStep, jsLt_fin_fin]
      · refine ih hrest _ (Or.inr ?_)
        simp [extentStep, jsLt]

/-- Claim C10: the padded vertical extent always satisfies `ymin < ymax` —
empty or finite-value-free channels fall back to `[0, 1]`, a constant finite
channel is widened to `[v-1, v+1]` before the 5% padding — so the pixel
mapping `(v - ymin) / (ymax - ymin)` in `drawLines` never divides by zero. -/
theorem c10_extent_padding_nondegenerate (arr : List JNum) :
    (∃ a b : ℚ, pad (extent arr) = (.fin a, .fin b) ∧ a < b) ∧
    ((∀ v ∈ arr, v.isFinite = false) → extent arr = (.fin 0, .fin 1)) ∧
    (∀ c : ℚ, (∀ v ∈ arr, v = .fin c ∨ v = .nan) → JNum.fin c ∈ arr →
      extent arr = (.fin (c - 1), .fin (c + 1))) := by
  refine ⟨?_, ?_, ?_⟩
  · have hgood : GoodPair (arr.foldl extentStep (JNum.pinf, JNum.ninf)) :=
      extentScan_good arr _ ⟨by simp, by simp, by simp⟩
    rcases hfold : arr.foldl extentStep (JNum.pinf, JNum.ninf) with ⟨lo, hi⟩
    rw [hfold] at hgood
    obtain ⟨h1, h2, h3⟩ := hgood
    have hfallback : extent arr = (.fin 0, .fin 1) →
        ∃ a b : ℚ, pad (extent arr) = (.fin a, .fin b) ∧ a < b := by
      intro hx
      exact ⟨0 - 5 / 100 * (1 - 0), 1 + 5 / 100 * (1 - 0), by rw [hx, pad_fin], by norm_num⟩
    cases lo with
    | nan => exact absurd rfl h1
    | pinf => exact hfallback (by simp [extent, hfold, JNum.isFinite])
    | ninf => exact hfallback (by simp [extent, hfold, JNum.isFinite])
    | fin a =>
      cases hi with
      | nan => exact absurd rfl h2
      | pinf => exact hfallback (by simp [extent, hfold, JNum.isFinite])
      | ninf => exact hfallback (by simp [extent, hfold, JNum.isFinite])
      | fin b =>
        have hab : a ≤ b := h3 a b rfl rfl
        by_cases hab2 : a = b
        · subst hab2
          have hx : extent arr = (.fin (a - 1), .fin (a + 1)) := by
            simp only [extent, hfold, JNum.isFinite, not_true, or_self, if_false,
              if_true, jsSub, jsAdd, jsNeg, sub_eq_add_neg]
          exact ⟨a - 1 - 5 / 100 * (a + 1 - (a - 1)), a + 1 + 5 / 100 * (a + 1 - (a - 1)),
            by rw [hx, pad_fin], by linarith⟩
        · have hx : extent arr = (.fin a, .fin b) := by
            simp [extent, hfold, JNum.isFinite, hab2]
          have hlt : a < b := lt_of_le_of_ne hab hab2
          exact ⟨a - 5 / 100 * (b - a), b + 5 / 100 * (b - a),
            by rw [hx, pad_fin], by nlinarith⟩
  · intro hnf
    have hscan := extentScan_nonfinite arr (JNum.pinf, JNum.ninf) hnf
      (by simp [JNum.isFinite]) (by simp [JNum.isFinite])
    rcases hfold : arr.foldl extentStep (JNum.pinf, JNum.ninf) with ⟨lo, hi⟩
    rw [hfold] at hscan
    simp [extent, hfold, hscan.1]
  · intro c hall hmem
    have hscan := extentScan_const c arr hall (JNum.pinf, JNum.ninf) (Or.inl ⟨rfl, hmem⟩)
    simp only [extent, hscan, JNum.isFinite, not_true, or_self, if_false, if_true,
      jsSub, jsAdd, jsNeg, sub_eq_add_neg]

/-- Witness for C10's conditional branches at concrete channel contents. -/
theorem c10_witness :
    ((∀ v ∈ ([JNum.nan, JNum.pinf] : List JNum), v.isFinite = false) ∧
      extent [JNum.nan, JNum.pinf] = (.fin 0, .fin 1)) ∧
    ((∀ v ∈ ([JNum.fin 7, JNum.nan, JNum.fin 7] : List JNum), v = .fin 7 ∨ v = .nan) ∧
      JNum.fin 7 ∈ ([JNum.fin 7, JNum.nan, JNum.fin 7] : List JNum) ∧
      extent [JNum.fin 7, JNum.nan, JNum.fin 7] = (.fin 6, .fin 8)) :=
  ⟨⟨by decide, (c10_extent_padding_nondegenerate [JNum.nan, JNum.pinf]).2.1 (by decide)⟩,
   ⟨by decide, by decide, by
      have hx := (c10_extent_padding_nondegenerate [JNum.fin 7, JNum.nan, JNum.fin 7]).2.2 7
        (by decide) (by decide)
      norm_num at hx
      exact hx⟩⟩

/-- A 100-sample trajectory record (all channels zero), used as the concrete
trajectory of the playback claims. -/
def demoRec : Record :=
  { t := List.replicate 100 (JsVal.num 0)
    pos := List.replicate 100 (JsVal.num 0, JsVal.num 0, JsVal.num 0)
    vel := List.replicate 100 (JsVal.num 0, JsVal.num 0, JsVal.num 0)
    quat := List.replicate 100 (JsVal.num 1, JsVal.num 0, JsVal.num 0, JsVal.num 0)
    omega := List.replicate 100 (JsVal.num 0, JsVal.num 0, JsVal.num 0)
    fuel := List.replicate 100 (JsVal.num 0) }

/-- Playback started at speed 1 from index 0 on the 100-sample trajectory. -/
def demoState : AppState :=
  { data := some demoRec
    euler := none
    playing := true
    sliderVal := 0
    sliderMax := 99
    speed := 1
    snapshots := [] }

theorem clampSlider_bounds (st : AppState) (v : ℤ) (h : 0 ≤ st.sliderMax) :
    0 ≤ clampSlider st v ∧ clampSlider st v ≤ st.sliderMax := by
  unfold clampSlider
  omega

theorem tick_fields (st : AppState) :
    (tick st).data = st.data ∧ (tick st).sliderMax = st.sliderMax ∧
      (tick st).speed = st.speed := by
  unfold tick
  split
  · exact ⟨rfl, rfl, rfl⟩
  · cases hd : st.data with
    | none => exact ⟨hd, rfl, rfl⟩
    | some r =>
      simp only
      split <;> exact ⟨rfl, rfl, rfl⟩

theorem inv_tick (st : AppState) (h : Inv st) : Inv (tick st) := by
  obtain ⟨h1, h2, h3, h4⟩ := h
  unfold tick
  split
  · exact ⟨h1, h2, h3, h4⟩
  · cases hd : st.data with
    | none => exact ⟨h1, h2, h3, h4⟩
    | some r =>
      have hcl := clampSlider_bounds st
        (min ((r.t.length : ℤ) - 1) (st.sliderVal + st.speed)) h3
      simp only
      split <;> exact ⟨hcl.1, hcl.2, h3, fun r' hr' => h4 r' (hd ▸ hr')⟩

theorem inv_scrub (st : AppState) (v : ℤ) (h : Inv st) : Inv (sliderScrub st v) := by
  obtain ⟨h1, h2, h3, h4⟩ := h
  have hcl := clampSlider_bounds st v h3
  exact ⟨hcl.1, hcl.2, h3, h4⟩

theorem inv_click (st : AppState) (xp wp : ℚ) (h : Inv st) : Inv (plotClick st xp wp) := by
  obtain ⟨h1, h2, h3, h4⟩ := h
  unfold plotClick
  cases hd : st.data with
  | none => exact ⟨h1, h2, h3, h4⟩
  | some r =>
    have hcl := clampSlider_bounds st
      (max 0 (min ((r.t.length : ℤ) - 1) ⌊xp / wp * ((r.t.length : ℚ) - 1) + 1 / 2⌋)) h3
    exact ⟨hcl.1, hcl.2, h3, fun r' hr' => h4 r' (hd ▸ hr')⟩

theorem inv_step (st : AppState) (op : Op) (h : Inv st) : Inv (step st op) := by
  cases op with
  | tickOp => exact inv_tick st h
  | scrubOp v => exact inv_scrub st v h
  | clickOp xp wp => exact inv_click st xp wp h

theorem inv_foldl (ops : List Op) (st : AppState) (h : Inv st) :
    Inv (ops.foldl step st) := by
  induction ops generalizing st with
  | nil => exact h
  | cons op rest ih => exact ih _ (inv_step st op h)

theorem inv_demoState : Inv demoState := by
  refine ⟨by decide, by decide, by decide, ?_⟩
  intro r hr
  have hr2 : some demoRec = some r := hr
  obtain rfl := Option.some_inj.mp hr2
  exact ⟨by decide, by decide⟩

theorem inv_tick_iterate (k : ℕ) : Inv (tick^[k] demoState) := by
  induction k with
  | zero => exact inv_demoState
  | succ n ih =>
    rw [Function.iterate_succ_apply']
    exact inv_tick _ ih

theorem tick_iterate_sliderMax (k : ℕ) : (tick^[k] demoState).sliderMax = 99 := by
  induction k with
  | zero => rfl
  | succ n ih =>
    rw [Function.iterate_succ_apply']
    rw [(tick_fields (tick^[n] demoState)).2.1, ih]

/-- Claim C2: for every loaded trajectory and every sequence of playback
ticks and scrubs, at any (signed) speed, the controller's current index
stays inside `[0, N-1]`; each tick while Playing advances the index by the
speed clamped into the valid range; reaching the last index forces the
Stopped state; and playing at speed 1 from index 0 on a 100-sample
trajectory reaches Stopped exactly at index 99 after 99 ticks, never
overshooting. -/
theorem c2_playback_index_bounds :
    (∀ (st : AppState) (ops : List Op), Inv st → Inv (ops.foldl step st)) ∧
    (∀ (st : AppState) (r : Record) (ops : List Op), Inv st →
      (ops.foldl step st).data = some r →
      0 ≤ (ops.foldl step st).sliderVal ∧
        (ops.foldl step st).sliderVal ≤ (r.t.length : ℤ) - 1) ∧
    (∀ (st : AppState) (r : Record), Inv st → st.playing = true → st.data = some r →
      (tick st).sliderVal = max 0 (min ((r.t.length : ℤ) - 1) (st.sliderVal + st.speed))) ∧
    (∀ (st : AppState) (r : Record), st.playing = true → st.data = some r →
      (tick st).sliderVal = (r.t.length : ℤ) - 1 → (tick st).playing = false) ∧
    ((tick^[99] demoState).sliderVal = 99 ∧ (tick^[99] demoState).playing = false ∧
      (tick^[98] demoState).playing = true ∧
      ∀ k : ℕ, 0 ≤ (tick^[k] demoState).sliderVal ∧ (tick^[k] demoState).sliderVal ≤ 99) := by
  refine ⟨fun st ops h => inv_foldl ops st h, ?_, ?_, ?_, ?_, ?_, ?_, ?_⟩
  · intro st r ops h hd
    obtain ⟨h1, h2, h3, h4⟩ := inv_foldl ops st h
    exact ⟨h1, (h4 r hd).1 ▸ h2⟩
  · intro st r h hp hd
    obtain ⟨h1, h2, h3, h4⟩ := h
    have hmax := (h4 r hd).1
    unfold tick
    rw [hp, hd]
    simp only [Bool.true_eq_false, if_false]
    simp only [clampSlider, hmax]
    split <;> · simp only; omega
  · intro st r hp hd hval
    unfold tick at hval ⊢
    rw [hp, hd] at hval ⊢
    simp only [Bool.true_eq_false, if_false] at hval ⊢
    split at hval
    · rename_i hcond
      rw [if_pos hcond]
    · rename_i hcond
      simp only at hval
      rw [hval] at hcond
      exact absurd (le_refl _) hcond
  · decide
  · decide
  · decide
  · intro k
    obtain ⟨h1, h2, _, _⟩ := inv_tick_iterate k
    exact ⟨h1, (tick_iterate_sliderMax k) ▸ h2⟩

/-- Witness for C2 at the concrete 100-sample Playing state. -/
theorem c2_witness :
    Inv demoState ∧ demoState.playing = true ∧ demoState.data = some demoRec ∧
      (tick demoState).sliderVal = max 0 (min ((demoRec.t.length : ℤ) - 1) (0 + 1)) :=
  ⟨inv_demoState, rfl, rfl,
    c2_playback_index_bounds.2.2.1 demoState demoRec inv_demoState rfl rfl⟩

/-- Counterexample to claim C9 as stated: clicking in a plot while Playing
sets the index but does not stop playback — the playing flag stays `true`,
so a plot-area scrub does not leave the controller Stopped. -/
theorem c9_counterexample_plot_click_keeps_playing :
    demoState.playing = true ∧
    (plotClick demoState 5 10).sliderVal = 50 ∧
    (plotClick demoState 5 10).playing = true := by
  refine ⟨rfl, ?_, rfl⟩
  simp [plotClick, demoState, demoRec, clampSlider]
  norm_num

/-- Claim C9 (amended): a slider scrub sets the index directly and always
leaves the controller Stopped; a plot-click scrub sets the index directly
but leaves the playing flag unchanged, so playback continues if it was
Playing. -/
theorem c9_scrub_behavior :
    (∀ (st : AppState) (v : ℤ),
      (sliderScrub st v).playing = false ∧
        (sliderScrub st v).sliderVal = clampSlider st v) ∧
    (∀ (st : AppState) (r : Record) (xp wp : ℚ), st.data = some r →
      (plotClick st xp wp).playing = st.playing ∧
        (plotClick st xp wp).sliderVal =
          clampSlider st
            (max 0 (min ((r.t.length : ℤ) - 1) ⌊xp / wp * ((r.t.length : ℚ) - 1) + 1 / 2⌋))) := by
  refine ⟨fun st v => ⟨rfl, rfl⟩, ?_⟩
  intro st r xp wp hd
  unfold plotClick
  rw [hd]
  exact ⟨rfl, rfl⟩

/-- Witness for C9's amended plot-click clause at a concrete state. -/
theorem c9_witness :
    demoState.data = some demoRec ∧
      (plotClick demoState 5 10).playing = demoState.playing ∧
      (plotClick demoState 5 10).sliderVal =
        clampSlider demoState
          (max 0 (min ((demoRec.t.length : ℤ) - 1) ⌊(5 : ℚ) / 10 * ((demoRec.t.length : ℚ) - 1) + 1 / 2⌋)) :=
  ⟨rfl, c9_scrub_behavior.2 demoState demoRec 5 10 rfl⟩

/-- Claim C3: whenever the computed pitch sine `2(w·y - z·x)` has magnitude
at least 1 (the gimbal-lock boundary), `quatToEuler` returns pitch exactly
`±π/2` with the sign of that sine — arcsine is never applied to an
out-of-domain value — and the pitch is always inside `[-π/2, π/2]` (the
real-arithmetic counterpart of "never NaN"). -/
theorem c3_pitch_gimbal_guard (w x y z : ℝ) :
    (1 ≤ 2 * (w * y - z * x) → (quatToEuler (w, x, y, z)).2.1 = Real.pi / 2) ∧
    (2 * (w * y - z * x) ≤ -1 → (quatToEuler (w, x, y, z)).2.1 = -(Real.pi / 2)) ∧
    (1 ≤ |2 * (w * y - z * x)| →
      (quatToEuler (w, x, y, z)).2.1 = jsSign (2 * (w * y - z * x)) * (Real.pi / 2)) ∧
    -(Real.pi / 2) ≤ (quatToEuler (w, x, y, z)).2.1 ∧
      (quatToEuler (w, x, y, z)).2.1 ≤ Real.pi / 2 := by
  have hpi : (0 : ℝ) < Real.pi := Real.pi_pos
  simp only [quatToEuler]
  set s := 2 * (w * y - z * x) with hs
  refine ⟨?_, ?_, ?_, ?_⟩
  · intro h
    have habs : 1 ≤ |s| := le_abs.mpr (Or.inl h)
    rw [if_pos habs]
    have : jsSign s = 1 := by
      unfold jsSign
      rw [if_neg (by linarith), if_pos (by linarith)]
    rw [this, one_mul]
  · intro h
    have habs : 1 ≤ |s| := le_abs.mpr (Or.inr (by linarith))
    rw [if_pos habs]
    have : jsSign s = -1 := by
      unfold jsSign
      rw [if_pos (by linarith)]
    rw [this]
    ring
  · intro habs
    rw [if_pos habs]
  · constructor
    · split_ifs with habs
      · unfold jsSign
        split_ifs <;> nlinarith
      · exact Real.neg_pi_div_two_le_arcsin s
    · split_ifs with habs
      · unfold jsSign
        split_ifs <;> nlinarith
      · exact Real.arcsin_le_pi_div_two s

/-- Witness for C3 at the (non-unit) quaternion `(1,0,1,0)`, whose pitch
sine is `2 ≥ 1`. -/
theorem c3_witness :
    1 ≤ 2 * ((1 : ℝ) * 1 - 0 * 0) ∧ (quatToEuler (1, 0, 1, 0)).2.1 = Real.pi / 2 :=
  ⟨by norm_num, (c3_pitch_gimbal_guard 1 0 1 0).1 (by norm_num)⟩

theorem foldl_lastIdx_skip (l : List (ℕ × String)) (n : String) (acc : Option ℕ)
    (h : ∀ p ∈ l, p.2 ≠ n) :
    l.foldl (fun acc p => if p.2 = n then some p.1 else acc) acc = acc := by
  induction l generalizing acc with
  | nil => rfl
  | cons p rest ih =>
    rw [List.foldl_cons, if_neg (h p (by simp))]
    exact ih acc (fun q hq => h q (by simp [hq]))

theorem lastIdxOf_eq_none (hs : List String) (n : String) (h : n ∉ hs) :
    lastIdxOf hs n = none := by
  unfold lastIdxOf
  refine foldl_lastIdx_skip _ n none ?_
  intro p hp hpn
  rw [List.mem_enum_iff_getElem?] at hp
  exact h (hpn ▸ List.getElem?_mem hp)

theorem fileChange_ok_installs (st : AppState) (parsed : Record)
    (h : parsed.t.headD JsVal.undef ≠ JsVal.undef) :
    (fileChange st (Except.ok parsed)).1.data = some parsed ∧
      (fileChange st (Except.ok parsed)).2 = none := by
  obtain ⟨st', hst⟩ : ∃ st', setData st parsed = some st' := by
    unfold setData
    cases hh : parsed.t.headD JsVal.undef with
    | num v => exact ⟨_, rfl⟩
    | nan => exact ⟨_, rfl⟩
    | undef => exact absurd hh h
  have hdata : st'.data = some parsed := by
    unfold setData at hst
    cases hh : parsed.t.headD JsVal.undef with
    | num v =>
      rw [hh] at hst
      cases hst
      rfl
    | nan =>
      rw [hh] at hst
      cases hst
      rfl
    | undef => exact absurd hh h
  have hfc : fileChange st (Except.ok parsed) = (st', none) := by
    simp only [fileChange, hst]
  rw [hfc]
  exact ⟨hdata, rfl⟩

/-- The page state before any load: no record, no Euler cache, Stopped,
slider at the HTML defaults. -/
def initState : AppState :=
  { data := none
    euler := none
    playing := false
    sliderVal := 0
    sliderMax := 100
    speed := 1
    snapshots := [] }

/-- A delimited-text file whose header lacks all four quaternion columns. -/
def noQuatLines : List String := ["t,x,y,z,vx,vy,vz", "0,1,2,3,4,5,6"]

/-- Counterexample to claim C1 as stated: loading a file that is missing
the required quaternion columns does **not** fail — there is no
`MissingRequiredChannel` anywhere in the loaders — and a trajectory record
(whose orientation channel is all-`undefined`) **is** installed, with no
error message shown. -/
theorem c1_counterexample_missing_quat_load_succeeds :
    (loadCSV noQuatLines).quat = [(JsVal.undef, JsVal.undef, JsVal.undef, JsVal.undef)] ∧
    (fileChange initState (Except.ok (loadCSV noQuatLines))).1.data =
      some (loadCSV noQuatLines) ∧
    (fileChange initState (Except.ok (loadCSV noQuatLines))).2 = none := by
  refine ⟨by decide, ?_, ?_⟩
  · exact (fileChange_ok_installs initState (loadCSV noQuatLines) (by decide)).1
  · exact (fileChange_ok_installs initState (loadCSV noQuatLines) (by decide)).2

/-- Claim C1 (amended): the loaders have no `MissingRequiredChannel` failure
path.  A load whose input lacks all four quaternion columns still succeeds:
the orientation channel is filled with `undefined` for every sample (in both
the delimited-text and the columnar loader), and — whenever the time channel
has a defined first sample — the parsed record is installed by the change
handler with no error message.  Subsequent loads are handled by the same
total function, hence independent. -/
theorem c1_missing_required_channel_no_failure :
    (∀ lines : List String,
      "qw" ∉ csvHeaders lines → "qx" ∉ csvHeaders lines →
      "qy" ∉ csvHeaders lines → "qz" ∉ csvHeaders lines →
      (loadCSV lines).quat =
        List.replicate (csvRows lines).length
          (JsVal.undef, JsVal.undef, JsVal.undef, JsVal.undef)) ∧
    (∀ cols : List (String × List JsVal),
      (∀ p ∈ cols, p.1 ≠ "qw" ∧ p.1 ≠ "qx" ∧ p.1 ≠ "qy" ∧ p.1 ≠ "qz") →
      (loadParquet cols).quat =
        List.replicate (getColOf cols "t").length
          (JsVal.undef, JsVal.undef, JsVal.undef, JsVal.undef)) ∧
    (∀ (st : AppState) (parsed : Record), parsed.t.headD JsVal.undef ≠ JsVal.undef →
      (fileChange st (Except.ok parsed)).1.data = some parsed ∧
        (fileChange st (Except.ok parsed)).2 = none) := by
  refine ⟨?_, ?_, fun st parsed h => fileChange_ok_installs st parsed h⟩
  · intro lines h1 h2 h3 h4
    have e1 := lastIdxOf_eq_none _ _ h1
    have e2 := lastIdxOf_eq_none _ _ h2
    have e3 := lastIdxOf_eq_none _ _ h3
    have e4 := lastIdxOf_eq_none _ _ h4
    simp only [loadCSV, e1, e2, e3, e4, cellAt]
    rw [List.map_const']
  · intro cols hcols
    have habs : ∀ nm : String, nm = "qw" ∨ nm = "qx" ∨ nm = "qy" ∨ nm = "qz" →
        getColOf cols nm = [] := by
      intro nm hnm
      unfold getColOf
      rw [List.find?_eq_none.mpr]
      · rfl
      · intro p hp
        have := hcols p hp
        simp only [decide_eq_true_eq]
        rcases hnm with rfl | rfl | rfl | rfl
        · exact this.1
        · exact this.2.1
        · exact this.2.2.1
        · exact this.2.2.2
    simp only [loadParquet, habs "qw" (by simp), habs "qx" (by simp), habs "qy" (by simp),
      habs "qz" (by simp), List.getD_nil]
    rw [List.map_const']
    simp

/-- Witness for C1's amended statement at concrete inputs: the
quaternion-free delimited file, a quaternion-free column table, and the
installation of the parsed record. -/
theorem c1_witness :
    ("qw" ∉ csvHeaders noQuatLines ∧ "qx" ∉ csvHeaders noQuatLines ∧
      "qy" ∉ csvHeaders noQuatLines ∧ "qz" ∉ csvHeaders noQuatLines ∧
      (loadCSV noQuatLines).quat =
        List.replicate (csvRows noQuatLines).length
          (JsVal.undef, JsVal.undef, JsVal.undef, JsVal.undef)) ∧
    ((∀ p ∈ ([("t", [JsVal.num 0])] : List (String × List JsVal)),
        p.1 ≠ "qw" ∧ p.1 ≠ "qx" ∧ p.1 ≠ "qy" ∧ p.1 ≠ "qz") ∧
      (loadParquet [("t", [JsVal.num 0])]).quat =
        List.replicate (getColOf [("t", [JsVal.num 0])] "t").length
          (JsVal.undef, JsVal.undef, JsVal.undef, JsVal.undef)) ∧
    ((loadCSV noQuatLines).t.headD JsVal.undef ≠ JsVal.undef ∧
      (fileChange initState (Except.ok (loadCSV noQuatLines))).1.data =
        some (loadCSV noQuatLines)) :=
  ⟨⟨by decide, by decide, by decide, by decide,
      c1_missing_required_channel_no_failure.1 noQuatLines (by decide) (by decide)
        (by decide) (by decide)⟩,
   ⟨by decide,
      c1_missing_required_channel_no_failure.2.1 [("t", [JsVal.num 0])] (by decide)⟩,
   ⟨by decide,
      (c1_missing_required_channel_no_failure.2.2 initState (loadCSV noQuatLines)
        (by decide)).1⟩⟩

theorem all_replicate {α : Type} (n : ℕ) (a : α) (p : α → Bool) (h : p a = true) :
    (List.replicate n a).all p = true := by
  induction n with
  | zero => rfl
  | succ m ih => simp [List.replicate_succ, h, ih]

/-- The required logical column names of the loader. -/
def reqNames : List String := ["t", "x", "y", "z", "vx", "vy", "vz", "qw", "qx", "qy", "qz"]

theorem getColOf_eq_nil (cols : List (String × List JsVal)) (nm : String)
    (h : ∀ p ∈ cols, p.1 ≠ nm) : getColOf cols nm = [] := by
  unfold getColOf
  rw [List.find?_eq_none.mpr]
  · rfl
  · intro p hp
    simpa using h p hp

/-- Claim C5: a load whose input lacks the optional columns (angular rate
and fuel) succeeds, and the resulting record's fuel channel holds the `NaN`
sentinel at every one of its N positions while the angular-rate channel
holds `undefined` triples (both read as "not available" downstream); all
channels have exactly N samples — never silently shortened — and the time,
position, velocity and orientation channels are fully populated with
numbers.  Both loaders are covered, and the record is installed without an
error message. -/
theorem c5_missing_optional_channels_sentinel :
    (∀ lines : List String,
      "fuel" ∉ csvHeaders lines → "omx" ∉ csvHeaders lines →
      "omy" ∉ csvHeaders lines → "omz" ∉ csvHeaders lines →
      (∀ r ∈ csvRows lines, ∀ nm ∈ reqNames,
        (cellAt r (lastIdxOf (csvHeaders lines) nm)).isNum = true) →
      (loadCSV lines).fuel = List.replicate (csvRows lines).length JsVal.nan ∧
      (loadCSV lines).omega =
        List.replicate (csvRows lines).length (JsVal.undef, JsVal.undef, JsVal.undef) ∧
      (loadCSV lines).fuel.all JsVal.isNA = true ∧
      (loadCSV lines).t.length = (csvRows lines).length ∧
      (loadCSV lines).pos.length = (csvRows lines).length ∧
      (loadCSV lines).vel.length = (csvRows lines).length ∧
      (loadCSV lines).quat.length = (csvRows lines).length ∧
      (loadCSV lines).omega.length = (csvRows lines).length ∧
      (loadCSV lines).fuel.length = (csvRows lines).length ∧
      (loadCSV lines).t.all JsVal.isNum = true ∧
      (loadCSV lines).pos.all
        (fun p => p.1.isNum && p.2.1.isNum && p.2.2.isNum) = true ∧
      (loadCSV lines).vel.all
        (fun p => p.1.isNum && p.2.1.isNum && p.2.2.isNum) = true ∧
      (loadCSV lines).quat.all
        (fun p => p.1.isNum && p.2.1.isNum && p.2.2.1.isNum && p.2.2.2.isNum) = true ∧
      (0 < (csvRows lines).length → ∀ st : AppState,
        (fileChange st (Except.ok (loadCSV lines))).1.data = some (loadCSV lines) ∧
          (fileChange st (Except.ok (loadCSV lines))).2 = none)) ∧
    (∀ cols : List (String × List JsVal),
      (∀ p ∈ cols, p.1 ≠ "fuel" ∧ p.1 ≠ "omx" ∧ p.1 ≠ "omy" ∧ p.1 ≠ "omz") →
      (∀ nm ∈ reqNames, (getColOf cols nm).length = (getColOf cols "t").length ∧
        ∀ v ∈ getColOf cols nm, v.isNum = true) →
      (loadParquet cols).fuel =
        List.replicate (getColOf cols "t").length JsVal.nan ∧
      (loadParquet cols).omega =
        List.replicate (getColOf cols "t").length (JsVal.undef, JsVal.undef, JsVal.undef) ∧
      (loadParquet cols).fuel.all JsVal.isNA = true ∧
      (loadParquet cols).t.length = (getColOf cols "t").length ∧
      (loadParquet cols).pos.length = (getColOf cols "t").length ∧
      (loadParquet cols).vel.length = (getColOf cols "t").length ∧
      (loadParquet cols).quat.length = (getColOf cols "t").length ∧
      (loadParquet cols).omega.length = (getColOf cols "t").length ∧
      (loadParquet cols).fuel.length = (getColOf cols "t").length ∧
      (loadParquet cols).t.all JsVal.isNum = true ∧
      (loadParquet cols).pos.all
        (fun p => p.1.isNum && p.2.1.isNum && p.2.2.isNum) = true ∧
      (loadParquet cols).vel.all
        (fun p => p.1.isNum && p.2.1.isNum && p.2.2.isNum) = true ∧
      (loadParquet cols).quat.all
        (fun p => p.1.isNum && p.2.1.isNum && p.2.2.1.isNum && p.2.2.2.isNum) = true) := by
  constructor
  · intro lines hfuel homx homy homz hreq
    have efuel := lastIdxOf_eq_none _ _ hfuel
    have eomx := lastIdxOf_eq_none _ _ homx
    have eomy := lastIdxOf_eq_none _ _ homy
    have eomz := lastIdxOf_eq_none _ _ homz
    have hnum : ∀ nm ∈ reqNames, ∀ r ∈ csvRows lines,
        (cellAt r (lastIdxOf (csvHeaders lines) nm)).isNum = true :=
      fun nm hnm r hr => hreq r hr nm hnm
    refine ⟨?_, ?_, ?_, ?_, ?_, ?_, ?_, ?_, ?_, ?_, ?_, ?_, ?_, ?_⟩
    · simp only [loadCSV, efuel]
      rw [List.length_map]
    · simp only [loadCSV, eomx, eomy, eomz, cellAt]
      rw [List.map_const']
    · simp only [loadCSV, efuel]
      rw [List.length_map]
      exact all_replicate _ _ _ rfl
    · simp only [loadCSV]
      rw [List.length_map]
    · simp only [loadCSV]
      rw [List.length_map]
    · simp only [loadCSV]
      rw [List.length_map]
    · simp only [loadCSV]
      rw [List.length_map]
    · simp only [loadCSV]
      rw [List.length_map]
    · simp only [loadCSV, efuel]
      rw [List.length_map, List.length_replicate]
    · simp only [loadCSV, List.all_eq_true]
      intro v hv
      rw [List.mem_map] at hv
      obtain ⟨r, hr, rfl⟩ := hv
      exact hnum "t" (by simp [reqNames]) r hr
    · simp only [loadCSV, List.all_eq_true]
      intro v hv
      rw [List.mem_map] at hv
      obtain ⟨r, hr, rfl⟩ := hv
      simp only [Bool.and_eq_true]
      exact ⟨⟨hnum "x" (by simp [reqNames]) r hr, hnum "y" (by simp [reqNames]) r hr⟩,
        hnum "z" (by simp [reqNames]) r hr⟩
    · simp only [loadCSV, List.all_eq_true]
      intro v hv
      rw [List.mem_map] at hv
      obtain ⟨r, hr, rfl⟩ := hv
      simp only [Bool.and_eq_true]
      exact ⟨⟨hnum "vx" (by simp [reqNames]) r hr, hnum "vy" (by simp [reqNames]) r hr⟩,
        hnum "vz" (by simp [reqNames]) r hr⟩
    · simp only [loadCSV, List.all_eq_true]
      intro v hv
      rw [List.mem_map] at hv
      obtain ⟨r, hr, rfl⟩ := hv
      simp only [Bool.and_eq_true]
      exact ⟨⟨⟨hnum "qw" (by simp [reqNames]) r hr, hnum "qx" (by simp [reqNames]) r hr⟩,
        hnum "qy" (by simp [reqNames]) r hr⟩, hnum "qz" (by simp [reqNames]) r hr⟩
    · intro hlen st
      refine fileChange_ok_installs st (loadCSV lines) ?_
      rcases hrows : csvRows lines with _ | ⟨r0, rest⟩
      · rw [hrows] at hlen
        simp at hlen
      · have hr0 : (cellAt r0 (lastIdxOf (csvHeaders lines) "t")).isNum = true :=
          hnum "t" (by simp [reqNames]) r0 (by rw [hrows]; exact List.mem_cons_self r0 rest)
        have hT : (loadCSV lines).t.headD JsVal.undef =
            cellAt r0 (lastIdxOf (csvHeaders lines) "t") := by
          simp only [loadCSV, hrows, List.map_cons, List.headD_cons]
        rw [hT]
        cases hc : cellAt r0 (lastIdxOf (csvHeaders lines) "t") with
        | num v => simp
        | nan => simp
        | undef => rw [hc] at hr0; exact absurd hr0 (by simp [JsVal.isNum])
  · intro cols habs hreq
    have efuel : getColOf cols "fuel" = [] :=
      getColOf_eq_nil cols _ (fun p hp => (habs p hp).1)
    have eomx : getColOf cols "omx" = [] :=
      getColOf_eq_nil cols _ (fun p hp => (habs p hp).2.1)
    have eomy : getColOf cols "omy" = [] :=
      getColOf_eq_nil cols _ (fun p hp => (habs p hp).2.2.1)
    have eomz : getColOf cols "omz" = [] :=
      getColOf_eq_nil cols _ (fun p hp => (habs p hp).2.2.2)
    have hcell : ∀ nm ∈ reqNames, ∀ i < (getColOf cols "t").length,
        ((getColOf cols nm).getD i JsVal.undef).isNum = true := by
      intro nm hnm i hi
      obtain ⟨hlen, hmem⟩ := hreq nm hnm
      have hi2 : i < (getColOf cols nm).length := by rw [hlen]; exact hi
      rw [List.getD_eq_getElem _ _ hi2]
      exact hmem _ (List.getElem_mem hi2)
    refine ⟨?_, ?_, ?_, ?_, ?_, ?_, ?_, ?_, ?_, ?_, ?_, ?_, ?_⟩
    · simp only [loadParquet, efuel, List.getD_nil]
      rw [List.map_const']
      simp
    · simp only [loadParquet, eomx, eomy, eomz, List.getD_nil]
      rw [List.map_const']
      simp
    · simp only [loadParquet, efuel, List.getD_nil]
      rw [List.map_const']
      exact all_replicate _ _ _ rfl
    · simp only [loadParquet]
    · simp only [loadParquet]
      rw [List.length_map, List.length_range]
    · simp only [loadParquet]
      rw [List.length_map, List.length_range]
    · simp only [loadParquet]
      rw [List.length_map, List.length_range]
    · simp only [loadParquet]
      rw [List.length_map, List.length_range]
    · simp only [loadParquet]
      rw [List.length_map, List.length_range]
    · simp only [loadParquet, List.all_eq_true]
      intro v hv
      have ht0 : getColOf cols "t" = getColOf cols "t" := rfl
      have := hreq "t" (by simp [reqNames])
      exact this.2 v hv
    · simp only [loadParquet, List.all_eq_true]
      intro v hv
      rw [List.mem_map] at hv
      obtain ⟨i, hi, rfl⟩ := hv
      rw [List.mem_range] at hi
      simp only [Bool.and_eq_true]
      exact ⟨⟨hcell "x" (by simp [reqNames]) i hi, hcell "y" (by simp [reqNames]) i hi⟩,
        hcell "z" (by simp [reqNames]) i hi⟩
    · simp only [loadParquet, List.all_eq_true]
      intro v hv
      rw [List.mem_map] at hv
      obtain ⟨i, hi, rfl⟩ := hv
      rw [List.mem_range] at hi
      simp only [Bool.and_eq_true]
      exact ⟨⟨hcell "vx" (by simp [reqNames]) i hi, hcell "vy" (by simp [reqNames]) i hi⟩,
        hcell "vz" (by simp [reqNames]) i hi⟩
    · simp only [loadParquet, List.all_eq_true]
      intro v hv
      rw [List.mem_map] at hv
      obtain ⟨i, hi, rfl⟩ := hv
      rw [List.mem_range] at hi
      simp only [Bool.and_eq_true]
      exact ⟨⟨⟨hcell "qw" (by simp [reqNames]) i hi, hcell "qx" (by simp [reqNames]) i hi⟩,
        hcell "qy" (by simp [reqNames]) i hi⟩, hcell "qz" (by simp [reqNames]) i hi⟩

/-- A 500-sample delimited-text trajectory with no optional channels. -/
def demo500Lines : List String :=
  "t,x,y,z,vx,vy,vz,qw,qx,qy,qz" :: List.replicate 500 "1,2,3,4,5,6,7,8,9,10,11"

/-- Witness for C5: the 500-sample file with no optional channels loads
with `fuel` reading "not available" at all 500 positions. -/
theorem c5_witness :
    ("fuel" ∉ csvHeaders demo500Lines ∧ "omx" ∉ csvHeaders demo500Lines ∧
      "omy" ∉ csvHeaders demo500Lines ∧ "omz" ∉ csvHeaders demo500Lines ∧
      (∀ r ∈ csvRows demo500Lines, ∀ nm ∈ reqNames,
        (cellAt r (lastIdxOf (csvHeaders demo500Lines) nm)).isNum = true)) ∧
    (csvRows demo500Lines).length = 500 ∧
    (loadCSV demo500Lines).fuel = List.replicate 500 JsVal.nan ∧
    (loadCSV demo500Lines).fuel.all JsVal.isNA = true := by
  have hrows : csvRows demo500Lines =
      List.replicate 500 ((splitComma "1,2,3,4,5,6,7,8,9,10,11").map jsNumber) := by
    simp only [demo500Lines, csvRows, List.tail_cons, List.map_replicate]
  have h1 : "fuel" ∉ csvHeaders demo500Lines := by decide
  have h2 : "omx" ∉ csvHeaders demo500Lines := by decide
  have h3 : "omy" ∉ csvHeaders demo500Lines := by decide
  have h4 : "omz" ∉ csvHeaders demo500Lines := by decide
  have h5 : ∀ r ∈ csvRows demo500Lines, ∀ nm ∈ reqNames,
      (cellAt r (lastIdxOf (csvHeaders demo500Lines) nm)).isNum = true := by
    intro r hr
    rw [hrows] at hr
    rw [List.eq_of_mem_replicate hr]
    decide
  have hlen : (csvRows demo500Lines).length = 500 := by
    rw [hrows, List.length_replicate]
  have hmain := c5_missing_optional_channels_sentinel.1 demo500Lines h1 h2 h3 h4 h5
  refine ⟨⟨h1, h2, h3, h4, h5⟩, hlen, ?_, hmain.2.2.1⟩
  rw [hmain.1, hlen]

theorem atan2_range (y x : ℝ) : -Real.pi < atan2 y x ∧ atan2 y x ≤ Real.pi := by
  have hpi := Real.pi_pos
  have hu := Real.arctan_lt_pi_div_two (y / x)
  have hl := Real.neg_pi_div_two_lt_arctan (y / x)
  unfold atan2
  split_ifs with h1 h2 h3 h4 h5
  · constructor <;> linarith
  · have hyx : y / x ≤ 0 := div_nonpos_iff.mpr (Or.inl ⟨h3, h2.le⟩)
    have harc : Real.arctan (y / x) ≤ 0 :=
      (Real.arctan_strictMono.monotone hyx).trans_eq Real.arctan_zero
    constructor <;> linarith
  · have hyx : 0 < y / x := div_pos_iff.mpr (Or.inr ⟨by linarith, h2⟩)
    have harc : 0 < Real.arctan (y / x) := by
      rw [← Real.arctan_zero]
      exact Real.arctan_strictMono hyx
    constructor <;> linarith
  · constructor <;> linarith
  · constructor <;> linarith
  · constructor <;> linarith

theorem jsMod_pos_range (a : ℝ) (ha : 0 < a) :
    0 ≤ jsMod a 360 ∧ jsMod a 360 < 360 := by
  unfold jsMod jsTrunc
  have h1 : (0 : ℝ) ≤ a / 360 := by positivity
  rw [if_pos h1]
  have hfr1 : (0 : ℝ) ≤ Int.fract (a / 360) := Int.fract_nonneg _
  have hfr2 : Int.fract (a / 360) < 1 := Int.fract_lt_one _
  have heq : a - 360 * (⌊a / 360⌋ : ℝ) = 360 * Int.fract (a / 360) := by
    rw [← Int.self_sub_floor]
    ring
  constructor <;> linarith [heq]

/-- Claim C8 (amended): the heading is computed from the projection of the
transformed forward axis onto the **x–z** plane (not the horizontal x–y
plane of the z-up world): it is unavailable exactly when that x–z
projection's magnitude is at most `1e-2`, and otherwise equals the angle
`atan2(x, z)` in degrees normalized into `[0°, 360°)`. -/
theorem c8_heading_xz_projection (q : ℝ × ℝ × ℝ × ℝ) :
    (headingOf q = none ↔
      Real.sqrt ((quatRotate (normalizeQ q) (0, 0, 1)).1 ^ 2 +
          (quatRotate (normalizeQ q) (0, 0, 1)).2.2 ^ 2) ≤ 1 / 100) ∧
    (∀ h : ℝ, headingOf q = some h →
      h = jsMod (atan2 (quatRotate (normalizeQ q) (0, 0, 1)).1
            (quatRotate (normalizeQ q) (0, 0, 1)).2.2 * (180 / Real.pi) + 360) 360 ∧
        0 ≤ h ∧ h < 360) := by
  have hpi := Real.pi_pos
  unfold headingOf
  simp only
  split_ifs with hproj
  · refine ⟨by simp; linarith, ?_⟩
    intro h hh
    rw [Option.some_inj] at hh
    subst hh
    refine ⟨rfl, ?_⟩
    set f := quatRotate (normalizeQ q) (0, 0, 1) with hf
    have hrange := atan2_range f.1 f.2.2
    have hc : (0 : ℝ) < 180 / Real.pi := by positivity
    have hlb : -Real.pi * (180 / Real.pi) < atan2 f.1 f.2.2 * (180 / Real.pi) :=
      mul_lt_mul_of_pos_right hrange.1 hc
    have hval : -Real.pi * (180 / Real.pi) = -180 := by
      field_simp
      ring
    have hop : 0 < atan2 f.1 f.2.2 * (180 / Real.pi) + 360 := by
      rw [hval] at hlb
      linarith
    exact jsMod_pos_range _ hop
  · refine ⟨by simp; linarith, ?_⟩
    intro h hh
    exact absurd hh (by simp)

theorem normalizeQ_identity : normalizeQ ((1 : ℝ), 0, 0, 0) = ((1 : ℝ), 0, 0, 0) := by
  unfold normalizeQ
  norm_num

theorem quatRotate_identity_ez : quatRotate ((1 : ℝ), 0, 0, 0) (0, 0, 1) = ((0 : ℝ), 0, 1) := by
  simp [quatRotate, quatMul, quatConj]

/-- With the identity orientation — forward axis straight up in the z-up
world — the code computes the numeric heading 0°. -/
theorem heading_identity_eval : headingOf ((1 : ℝ), 0, 0, 0) = some 0 := by
  unfold headingOf
  rw [normalizeQ_identity, quatRotate_identity_ez]
  simp only
  have hproj : Real.sqrt ((0 : ℝ) ^ 2 + 1 ^ 2) = 1 := by
    rw [show ((0 : ℝ) ^ 2 + 1 ^ 2) = 1 by norm_num, Real.sqrt_one]
  rw [hproj, if_pos (by norm_num : (1 : ℝ) / 100 < 1)]
  have hatan : atan2 (0 : ℝ) 1 = 0 := by
    unfold atan2
    rw [if_pos (by norm_num : (0 : ℝ) < 1), zero_div, Real.arctan_zero]
  rw [hatan, zero_mul, zero_add]
  have hmod : jsMod (360 : ℝ) 360 = 0 := by
    unfold jsMod jsTrunc
    rw [div_self (by norm_num : (360 : ℝ) ≠ 0), if_pos (by norm_num : (0 : ℝ) ≤ 1)]
    norm_num
  rw [hmod]

/-- Counterexample to claim C8 as stated: with the identity orientation the
body's forward axis points straight up — vertical in the z-up world, with
horizontal (x–y) projection of magnitude 0, far below the small threshold —
yet the code reports the numeric heading 0° instead of "unavailable",
because it projects onto the x–z plane. -/
theorem c8_counterexample_vertical_forward_has_heading :
    specHorizontalProj (1, 0, 0, 0) = 0 ∧
    specHorizontalProj (1, 0, 0, 0) ≤ 1 / 100 ∧
    headingOf (1, 0, 0, 0) = some 0 := by
  have hhoriz : specHorizontalProj (1, 0, 0, 0) = 0 := by
    unfold specHorizontalProj
    rw [normalizeQ_identity, quatRotate_identity_ez]
    norm_num
  exact ⟨hhoriz, by rw [hhoriz]; norm_num, heading_identity_eval⟩

/-- Witness for C8's amended statement: at the identity orientation the
heading is available, and the theorem yields its normalized-value facts. -/
theorem c8_witness :
    headingOf ((1 : ℝ), 0, 0, 0) = some 0 ∧
    ((0 : ℝ) = jsMod (atan2 (quatRotate (normalizeQ ((1 : ℝ), 0, 0, 0)) (0, 0, 1)).1
          (quatRotate (normalizeQ ((1 : ℝ), 0, 0, 0)) (0, 0, 1)).2.2 * (180 / Real.pi) + 360) 360 ∧
      (0 : ℝ) ≤ 0 ∧ (0 : ℝ) < 360) :=
  ⟨heading_identity_eval,
    (c8_heading_xz_projection ((1 : ℝ), 0, 0, 0)).2 0 heading_identity_eval⟩

theorem cos_sin_atan2 (y x : ℝ) (h : 0 < x ^ 2 + y ^ 2) :
    Real.cos (atan2 y x) = x / Real.sqrt (x ^ 2 + y ^ 2) ∧
    Real.sin (atan2 y x) = y / Real.sqrt (x ^ 2 + y ^ 2) := by
  have hS : (0 : ℝ) < Real.sqrt (x ^ 2 + y ^ 2) := Real.sqrt_pos.mpr h
  unfold atan2
  split_ifs with h1 h2 h3 h4 h5
  · have hx : x ≠ 0 := ne_of_gt h1
    have hq : 1 + (y / x) ^ 2 = (x ^ 2 + y ^ 2) / x ^ 2 := by
      field_simp
    have hsq : Real.sqrt (1 + (y / x) ^ 2) = Real.sqrt (x ^ 2 + y ^ 2) / x := by
      rw [hq, Real.sqrt_div (by positivity), Real.sqrt_sq h1.le]
    constructor
    · rw [Real.cos_arctan, hsq, one_div_div]
    · rw [Real.sin_arctan, hsq]
      field_simp
  · have hx : x ≠ 0 := ne_of_lt h2
    have hq : 1 + (y / x) ^ 2 = (x ^ 2 + y ^ 2) / x ^ 2 := by
      field_simp
    have hsq : Real.sqrt (1 + (y / x) ^ 2) = Real.sqrt (x ^ 2 + y ^ 2) / (-x) := by
      rw [hq, Real.sqrt_div (by positivity)]
      rw [show x ^ 2 = (-x) ^ 2 by ring, Real.sqrt_sq (by linarith)]
    constructor
    · rw [Real.cos_add_pi, Real.cos_arctan, hsq, one_div_div]
      field_simp
    · rw [Real.sin_add_pi, Real.sin_arctan, hsq]
      field_simp
      ring
  · have hx : x ≠ 0 := ne_of_lt h2
    have hq : 1 + (y / x) ^ 2 = (x ^ 2 + y ^ 2) / x ^ 2 := by
      field_simp
    have hsq : Real.sqrt (1 + (y / x) ^ 2) = Real.sqrt (x ^ 2 + y ^ 2) / (-x) := by
      rw [hq, Real.sqrt_div (by positivity)]
      rw [show x ^ 2 = (-x) ^ 2 by ring, Real.sqrt_sq (by linarith)]
    constructor
    · rw [Real.cos_sub_pi, Real.cos_arctan, hsq, one_div_div]
      field_simp
    · rw [Real.sin_sub_pi, Real.sin_arctan, hsq]
      field_simp
      ring
  · have hx : x = 0 := le_antisymm (not_lt.mp h1) (not_lt.mp h2)
    subst hx
    rw [Real.cos_pi_div_two, Real.sin_pi_div_two]
    constructor
    · rw [zero_div]
    · rw [show (0 : ℝ) ^ 2 + y ^ 2 = y ^ 2 by ring, Real.sqrt_sq h4.le]
      rw [div_self (ne_of_gt h4)]
  · have hx : x = 0 := le_antisymm (not_lt.mp h1) (not_lt.mp h2)
    subst hx
    rw [Real.cos_neg, Real.sin_neg, Real.cos_pi_div_two, Real.sin_pi_div_two]
    constructor
    · rw [zero_div]
    · rw [show (0 : ℝ) ^ 2 + y ^ 2 = y ^ 2 by ring, Real.sqrt_sq_eq_abs, abs_of_neg h5,
        div_neg, div_self (ne_of_lt h5)]
  · have hx : x = 0 := le_antisymm (not_lt.mp h1) (not_lt.mp h2)
    have hy : y = 0 := le_antisymm (not_lt.mp h4) (not_lt.mp h5)
    subst hx
    subst hy
    norm_num at h

theorem euler_quat_component_aux (w x y z vx vy vz ct cf sf cp sp st : ℝ)
    (h1 : w ^ 2 + x ^ 2 + y ^ 2 + z ^ 2 = 1)
    (e1 : ct * cf = 1 - 2 * (x ^ 2 + y ^ 2))
    (e2 : ct * sf = 2 * (w * x + y * z))
    (e3 : ct * cp = 1 - 2 * (y ^ 2 + z ^ 2))
    (e4 : ct * sp = 2 * (w * z + x * y))
    (e5 : ct ^ 2 = 1 - st ^ 2)
    (e6 : st = 2 * (w * y - z * x))
    (hct : ct ≠ 0) :
    (cp * (ct * vx + st * (sf * vy + cf * vz)) - sp * (cf * vy - sf * vz) =
      (w ^ 2 + x ^ 2 - y ^ 2 - z ^ 2) * vx + 2 * (x * y - w * z) * vy + 2 * (x * z + w * y) * vz) ∧
    (sp * (ct * vx + st * (sf * vy + cf * vz)) + cp * (cf * vy - sf * vz) =
      2 * (x * y + w * z) * vx + (w ^ 2 - x ^ 2 + y ^ 2 - z ^ 2) * vy + 2 * (y * z - w * x) * vz) ∧
    (-st * vx + ct * (sf * vy + cf * vz) =
      2 * (x * z - w * y) * vx + 2 * (y * z + w * x) * vy + (w ^ 2 - x ^ 2 - y ^ 2 + z ^ 2) * vz) := by
  have hct2 : ct ^ 2 ≠ 0 := pow_ne_zero 2 hct
  refine ⟨?_, ?_, ?_⟩
  · refine mul_left_cancel₀ hct2 ?_
    linear_combination (ct*cp*st*vz + (-1)*ct*sp*vy) * e1 + (ct*cp*st*vy + ct*sp*vz) * e2 + (ct^2*vx + 2*st*w*x*vy + (-2)*st*x^2*vz + (-2)*st*y^2*vz + 2*st*y*z*vy + st*vz) * e3 + (2*w*x*vz + 2*x^2*vy + 2*y^2*vy + 2*y*z*vz + (-1)*vy) * e4 + ((-1)*w^2*vx + (-2)*w*y*vz + 2*w*z*vy + (-1)*x^2*vx + (-2)*x*y*vy + (-2)*x*z*vz + (-1)*y^2*vx + (-1)*z^2*vx + vx) * e5 + (st*w^2*vx + 2*st*w*y*vz + (-2)*st*w*z*vy + st*x^2*vx + 2*st*x*y*vy + 2*st*x*z*vz + st*y^2*vx + st*z^2*vx + (-1)*st*vx + 2*w^3*y*vx + (-2)*w^2*x*z*vx + 4*w^2*y^2*vz + (-4)*w^2*y*z*vy + 2*w*x^2*y*vx + 2*w*x*vy + 2*w*y^3*vx + 2*w*y*z^2*vx + (-2)*w*y*vx + (-2)*x^3*z*vx + 4*x^2*y^2*vz + (-4)*x^2*y*z*vy + (-2)*x^2*vz + (-2)*x*y^2*z*vx + (-2)*x*z^3*vx + 2*x*z*vx + 4*y^4*vz + (-4)*y^3*z*vy + 4*y^2*z^2*vz + (-4)*y^2*vz + (-4)*y*z^3*vy + 2*y*z*vy + (-2)*z^2*vz + vz) * e6 + (4*w^2*y^2*vx + (-8)*w*x*y*z*vx + 8*w*y^3*vz + (-8)*w*y^2*z*vy + 4*x^2*z^2*vx + (-8)*x*y^2*z*vz + 8*x*y*z^2*vy + 4*x*y*vy + 4*x*z*vz + (-1)*vx) * h1
  · refine mul_left_cancel₀ hct2 ?_
    linear_combination (ct*cp*vy + ct*sp*st*vz) * e1 + ((-1)*ct*cp*vz + ct*sp*st*vy) * e2 + ((-2)*w*x*vz + (-2)*x^2*vy + (-2)*y^2*vy + (-2)*y*z*vz + vy) * e3 + (ct^2*vx + 2*st*w*x*vy + (-2)*st*x^2*vz + (-2)*st*y^2*vz + 2*st*y*z*vy + st*vz) * e4 + ((-1)*w^2*vy + 2*w*x*vz + x^2*vy + (-1)*y^2*vy + (-2)*y*z*vz + z^2*vy) * e5 + (st*w^2*vy + (-2)*st*w*x*vz + (-1)*st*x^2*vy + st*y^2*vy + 2*st*y*z*vz + (-1)*st*z^2*vy + 2*w^3*y*vy + (-4)*w^2*x*y*vz + 2*w^2*x*z*vy + 2*w*x^2*y*vy + 2*w*y^3*vy + 2*w*y*z^2*vy + 2*w*z*vz + (-4)*x^3*y*vz + 2*x^3*z*vy + (-4)*x*y^3*vz + 2*x*y^2*z*vy + (-4)*x*y*z^2*vz + 2*x*y*vz + 2*x*z^3*vy) * e6 + (4*w^2*y^2*vy + (-8)*w*x*y^2*vz + 8*x^2*y*z*vz + (-4)*x^2*z^2*vy + 4*y^2*vy + 4*y*z*vz + (-1)*vy) * h1
  · refine mul_left_cancel₀ hct2 ?_
    linear_combination (ct^2*vz) * e1 + (ct^2*vy) * e2 + ((-1)*st*vx + (-1)*w^2*vz + 2*w*y*vx + (-1)*x^2*vz + (-2)*x*z*vx + (-1)*y^2*vz + (-1)*z^2*vz + vz) * e5 + (st^2*vx + st*w^2*vz + st*x^2*vz + st*y^2*vz + st*z^2*vz + (-1)*st*vz + 2*w^3*y*vz + (-2)*w^2*x*z*vz + 2*w*x^2*y*vz + 2*w*y^3*vz + 2*w*y*z^2*vz + (-2)*w*y*vz + (-2)*x^3*z*vz + (-2)*x*y^2*z*vz + (-2)*x*z^3*vz + 2*x*z*vz + (-1)*vx) * e6 + (4*w^2*y^2*vz + (-8)*w*x*y*z*vz + 4*x^2*z^2*vz + (-1)*vz) * h1

/-- Claim C4 (amended): for every unit quaternion away from the exact
gimbal-lock boundary — `(2(wy - zx))² < 1` — the Euler angles returned by
`quatToEuler`, reconstructed through the intrinsic aerospace sequence,
have exactly the same effect as the quaternion on **every** vector.  (At
exact gimbal lock the round trip can fail; see the counterexample.) -/
theorem c4_euler_roundtrip_nongimbal (w x y z vx vy vz : ℝ)
    (hunit : w ^ 2 + x ^ 2 + y ^ 2 + z ^ 2 = 1)
    (hgl : (2 * (w * y - z * x)) ^ 2 < 1) :
    eulerRotate (quatToEuler (w, x, y, z)) (vx, vy, vz) =
      quatRotate (w, x, y, z) (vx, vy, vz) := by
  have habs : |2 * (w * y - z * x)| < 1 := by
    rw [← Real.sqrt_one, show |2 * (w * y - z * x)| = Real.sqrt ((2 * (w * y - z * x)) ^ 2) from
      (Real.sqrt_sq_eq_abs _).symm]
    exact Real.sqrt_lt_sqrt (sq_nonneg _) (by linarith)
  have hguard : ¬(1 ≤ |2 * (w * y - z * x)|) := not_le.mpr habs
  have hS1 : -1 ≤ 2 * (w * y - z * x) := by
    have := abs_lt.mp habs
    linarith
  have hS2 : 2 * (w * y - z * x) ≤ 1 := by
    have := abs_lt.mp habs
    linarith
  have homs : (0 : ℝ) < 1 - (2 * (w * y - z * x)) ^ 2 := by linarith
  have hctpos : (0 : ℝ) < Real.sqrt (1 - (2 * (w * y - z * x)) ^ 2) :=
    Real.sqrt_pos.mpr homs
  have hct2 : Real.sqrt (1 - (2 * (w * y - z * x)) ^ 2) ^ 2 =
      1 - (2 * (w * y - z * x)) ^ 2 := Real.sq_sqrt homs.le
  have hAB : (1 - 2 * (x * x + y * y)) ^ 2 + (2 * (w * x + y * z)) ^ 2 =
      1 - (2 * (w * y - z * x)) ^ 2 := by
    linear_combination (4 * x ^ 2 + 4 * y ^ 2) * hunit
  have hCD : (1 - 2 * (y * y + z * z)) ^ 2 + (2 * (w * z + x * y)) ^ 2 =
      1 - (2 * (w * y - z * x)) ^ 2 := by
    linear_combination (4 * y ^ 2 + 4 * z ^ 2) * hunit
  have hposAB : (0 : ℝ) < (1 - 2 * (x * x + y * y)) ^ 2 + (2 * (w * x + y * z)) ^ 2 := by
    rw [hAB]
    exact homs
  have hposCD : (0 : ℝ) < (1 - 2 * (y * y + z * z)) ^ 2 + (2 * (w * z + x * y)) ^ 2 := by
    rw [hCD]
    exact homs
  obtain ⟨hcosr, hsinr⟩ :=
    cos_sin_atan2 (2 * (w * x + y * z)) (1 - 2 * (x * x + y * y)) hposAB
  obtain ⟨hcosy, hsiny⟩ :=
    cos_sin_atan2 (2 * (w * z + x * y)) (1 - 2 * (y * y + z * z)) hposCD
  have hsqAB : Real.sqrt ((1 - 2 * (x * x + y * y)) ^ 2 + (2 * (w * x + y * z)) ^ 2) =
      Real.sqrt (1 - (2 * (w * y - z * x)) ^ 2) := by
    rw [hAB]
  have hsqCD : Real.sqrt ((1 - 2 * (y * y + z * z)) ^ 2 + (2 * (w * z + x * y)) ^ 2) =
      Real.sqrt (1 - (2 * (w * y - z * x)) ^ 2) := by
    rw [hCD]
  have hctne : Real.sqrt (1 - (2 * (w * y - z * x)) ^ 2) ≠ 0 := ne_of_gt hctpos
  have e1 : Real.sqrt (1 - (2 * (w * y - z * x)) ^ 2) *
      Real.cos (atan2 (2 * (w * x + y * z)) (1 - 2 * (x * x + y * y))) =
      1 - 2 * (x ^ 2 + y ^ 2) := by
    rw [hcosr, hsqAB, mul_comm, div_mul_cancel₀ _ hctne]
    ring
  have e2 : Real.sqrt (1 - (2 * (w * y - z * x)) ^ 2) *
      Real.sin (atan2 (2 * (w * x + y * z)) (1 - 2 * (x * x + y * y))) =
      2 * (w * x + y * z) := by
    rw [hsinr, hsqAB, mul_comm, div_mul_cancel₀ _ hctne]
  have e3 : Real.sqrt (1 - (2 * (w * y - z * x)) ^ 2) *
      Real.cos (atan2 (2 * (w * z + x * y)) (1 - 2 * (y * y + z * z))) =
      1 - 2 * (y ^ 2 + z ^ 2) := by
    rw [hcosy, hsqCD, mul_comm, div_mul_cancel₀ _ hctne]
    ring
  have e4 : Real.sqrt (1 - (2 * (w * y - z * x)) ^ 2) *
      Real.sin (atan2 (2 * (w * z + x * y)) (1 - 2 * (y * y + z * z))) =
      2 * (w * z + x * y) := by
    rw [hsiny, hsqCD, mul_comm, div_mul_cancel₀ _ hctne]
  obtain ⟨g1, g2, g3⟩ := euler_quat_component_aux w x y z vx vy vz
    (Real.sqrt (1 - (2 * (w * y - z * x)) ^ 2))
    (Real.cos (atan2 (2 * (w * x + y * z)) (1 - 2 * (x * x + y * y))))
    (Real.sin (atan2 (2 * (w * x + y * z)) (1 - 2 * (x * x + y * y))))
    (Real.cos (atan2 (2 * (w * z + x * y)) (1 - 2 * (y * y + z * z))))
    (Real.sin (atan2 (2 * (w * z + x * y)) (1 - 2 * (y * y + z * z))))
    (2 * (w * y - z * x)) hunit e1 e2 e3 e4 hct2 rfl hctne
  simp only [quatToEuler, eulerRotate, rotX, rotY, rotZ, quatRotate, quatMul, quatConj]
  rw [if_neg hguard]
  rw [Real.sin_arcsin hS1 hS2, Real.cos_arcsin]
  simp only [Prod.mk.injEq]
  refine ⟨?_, ?_, ?_⟩
  · linear_combination g1
  · linear_combination g2
  · linear_combination g3

theorem atan2_zero_zero : atan2 (0 : ℝ) 0 = 0 := by
  unfold atan2
  norm_num

/-- Counterexample to claim C4 as stated: at the exact gimbal-lock unit
quaternion `(1/2, -1/2, 1/2, 1/2)` (pitch sine exactly 1), `quatToEuler`
collapses roll and yaw to `atan2(0, 0) = 0`, so the reconstructed rotation
maps the test vector `(0,0,1)` to `(1,0,0)` while the quaternion itself
maps it to `(0,1,0)`: the round trip fails for this valid unit
quaternion. -/
theorem c4_counterexample_gimbal_lock :
    ((1 : ℝ) / 2) ^ 2 + (-(1 / 2)) ^ 2 + (1 / 2) ^ 2 + (1 / 2) ^ 2 = 1 ∧
    eulerRotate (quatToEuler ((1 : ℝ) / 2, -(1 / 2), 1 / 2, 1 / 2)) (0, 0, 1) = ((1 : ℝ), 0, 0) ∧
    quatRotate ((1 : ℝ) / 2, -(1 / 2), 1 / 2, 1 / 2) (0, 0, 1) = ((0 : ℝ), 1, 0) ∧
    eulerRotate (quatToEuler ((1 : ℝ) / 2, -(1 / 2), 1 / 2, 1 / 2)) (0, 0, 1) ≠
      quatRotate ((1 : ℝ) / 2, -(1 / 2), 1 / 2, 1 / 2) (0, 0, 1) := by
  have heuler : quatToEuler ((1 : ℝ) / 2, -(1 / 2), 1 / 2, 1 / 2) = (0, Real.pi / 2, 0) := by
    unfold quatToEuler jsSign
    norm_num [atan2_zero_zero]
  have heul : eulerRotate (quatToEuler ((1 : ℝ) / 2, -(1 / 2), 1 / 2, 1 / 2)) (0, 0, 1) =
      ((1 : ℝ), 0, 0) := by
    rw [heuler]
    unfold eulerRotate rotX rotY rotZ
    simp [Real.cos_pi_div_two, Real.sin_pi_div_two]
  have hrot : quatRotate ((1 : ℝ) / 2, -(1 / 2), 1 / 2, 1 / 2) (0, 0, 1) = ((0 : ℝ), 1, 0) := by
    unfold quatRotate quatMul quatConj
    norm_num
  refine ⟨by norm_num, heul, hrot, ?_⟩
  rw [heul, hrot]
  simp [Prod.ext_iff]

/-- Witness for C4's amended statement at the identity quaternion and the
vector `(1, 2, 3)`. -/
theorem c4_witness :
    ((1 : ℝ) ^ 2 + 0 ^ 2 + 0 ^ 2 + 0 ^ 2 = 1) ∧ ((2 * ((1 : ℝ) * 0 - 0 * 0)) ^ 2 < 1) ∧
    eulerRotate (quatToEuler (1, 0, 0, 0)) (1, 2, 3) = quatRotate (1, 0, 0, 0) (1, 2, 3) :=
  ⟨by norm_num, by norm_num,
    c4_euler_roundtrip_nongimbal 1 0 0 0 1 2 3 (by norm_num) (by norm_num)⟩

end RViz
